import Mathlib

/-!
# Verification of the Gazai Deep Research Agent (`src/main.py`)

Shallow embedding of the two-stage research pipeline in `src/main.py`:

* `deep_research` — the research tool adapter: a try/except wrapper around an
  external Firecrawl call, returning a result dictionary (lines 55-90);
* the two agent definitions `research_agent` and `elaboration_agent` with
  their instruction strings (lines 93-128);
* `run_research_process` — the two-stage pipeline (lines 130-156);
* the Start Research button handler with its warning branch, final report
  display and download export (lines 159-183).

External collaborators (the Firecrawl service and the agent runtime behind
`Runner.run`) are opaque: they are modelled as function parameters
(oracles).  A call into the agent runtime may issue tool calls of the
runtime's own choosing and either returns a final output text or raises,
modelled with `Except`.  Python exceptions are modelled as `Except.error`
carrying the exception message.  User-interface effects (spinners,
markdown rendering, the warning, the error banner, the download button)
are recorded as an ordered trace of `Event`s.
-/

set_option maxRecDepth 16384

/-- One crawled source as returned by the research service: a URL plus
otherwise opaque metadata. -/
structure SourceRecord where
  url : String
  metadata : String
  deriving DecidableEq, Repr

/-- The `data` payload that `deep_research` reads out of the Firecrawl
response: `results.data.finalAnalysis` and `results.data.sources`
(lines 84-86). -/
structure FirecrawlData where
  finalAnalysis : String
  sources : List SourceRecord
  deriving DecidableEq, Repr

/-- The params dictionary that `deep_research` builds from its own
arguments (lines 64-68).  Python integers are unbounded, hence `Int`. -/
structure ResearchParams where
  maxDepth : Int
  timeLimit : Int
  maxUrls : Int
  deriving DecidableEq, Repr

/-- Lines 64-68: the adapter forwards its three numeric arguments
unchanged into the params dictionary. -/
def build_params (max_depth time_limit max_urls : Int) : ResearchParams :=
  { maxDepth := max_depth, timeLimit := time_limit, maxUrls := max_urls }

/-- The dictionary returned by `deep_research`.  `Option` models key
presence: the success dictionary (lines 82-87) carries `final_analysis`,
`sources_count` and `sources` and no `error` key; the failure dictionary
(line 90) carries only `error` next to `success := false`. -/
structure ResearchResult where
  success : Bool
  final_analysis : Option String := none
  sources_count : Option Nat := none
  sources : Option (List SourceRecord) := none
  error : Option String := none
  deriving DecidableEq, Repr

/-- Shallow embedding of `deep_research` (lines 55-90).  The external
call — `FirecrawlApp.deep_research` together with the dictionary accesses
on its response — is the oracle `firecrawl`; any exception it raises is
`Except.error` with the exception message, which the `try/except` at
lines 59/88 converts into the failure dictionary. -/
def deep_research (firecrawl : String → ResearchParams → Except String FirecrawlData)
    (query : String) (max_depth time_limit max_urls : Int) : ResearchResult :=
  match firecrawl query (build_params max_depth time_limit max_urls) with
  | Except.ok results =>
      { success := true
        final_analysis := some results.finalAnalysis
        sources_count := some results.sources.length
        sources := some results.sources
        error := none }
  | Except.error e =>
      { success := false, error := some e }

/-- A `ResearchResult` in the fully successful shape: `success`, all three
success-only fields present, no error field. -/
def fully_successful (r : ResearchResult) : Bool :=
  r.success && r.final_analysis.isSome && r.sources_count.isSome &&
    r.sources.isSome && r.error.isNone

/-- A `ResearchResult` in the fully failed shape: `success = false`, an
error message present, the three success-only fields absent. -/
def fully_failed (r : ResearchResult) : Bool :=
  !r.success && r.error.isSome && r.final_analysis.isNone &&
    r.sources_count.isNone && r.sources.isNone

/-- Every value `deep_research` returns is fully successful or fully
failed, whatever the external call does. -/
lemma deep_research_shape (firecrawl : String → ResearchParams → Except String FirecrawlData)
    (query : String) (max_depth time_limit max_urls : Int) :
    fully_successful (deep_research firecrawl query max_depth time_limit max_urls) = true ∨
      fully_failed (deep_research firecrawl query max_depth time_limit max_urls) = true := by
  cases h : firecrawl query (build_params max_depth time_limit max_urls) with
  | ok results => left; simp [deep_research, h, fully_successful]
  | error e => right; simp [deep_research, h, fully_failed]

/-- A concrete always-failing external call, used by witnesses. -/
def wf_firecrawl_raises : String → ResearchParams → Except String FirecrawlData :=
  fun _ _ => Except.error "boom"

/-- A concrete always-succeeding external call, used by witnesses. -/
def wf_firecrawl_ok : String → ResearchParams → Except String FirecrawlData :=
  fun _ _ => Except.ok { finalAnalysis := "analysis",
                         sources := [{ url := "https://a", metadata := "m" }] }

/-- The argument tuple of one invocation of the `deep_research` tool, as
chosen by the agent runtime during a run of the research agent. -/
structure ToolCall where
  query : String
  max_depth : Int
  time_limit : Int
  max_urls : Int
  deriving DecidableEq, Repr

/-- The `ResearchParams` that the adapter hands to the external service
when invoked with the arguments of tool call `c` (lines 64-68 forward the
arguments unchanged). -/
def adapter_service_params (c : ToolCall) : ResearchParams :=
  build_params c.max_depth c.time_limit c.max_urls

/-- One observable user-interface or invocation event, in program order. -/
inductive Event where
  | spinner (message : String)
  | runResearch (input : String)
  | toolCall (c : ToolCall)
  | expanderMarkdown (text : String)
  | runElaboration (input : String)
  | placeholderMarkdown (text : String)
  | download (file_name : String) (data : String) (mime : String)
  | warning (message : String)
  | errorMsg (message : String)
  deriving DecidableEq, Repr

/-- An agent definition: a name, a natural-language instruction string and
the names of its bound tools (lines 93-128).  The instructions are data
interpreted by the external runtime, not code. -/
structure AgentDef where
  name : String
  instructions : String
  tools : List String
  deriving DecidableEq, Repr

/-- The instruction string of `research_agent`, verbatim from lines
95-107. -/
def research_agent_instructions : String :=
  "You are a research assistant that can perform deep web research on any topic.\n\n    When given a research topic or question:\n    1. Use the deep_research tool to gather comprehensive information\n       - Always use these parameters:\n         * max_depth: 3 (for moderate depth)\n         * time_limit: 180 (3 minutes)\n         * max_urls: 10 (sufficient sources)\n    2. The tool will search the web, analyze multiple sources, and provide a synthesis\n    3. Review the research results and organize them into a well-structured report\n    4. Include proper citations for all sources\n    5. Highlight key findings and insights\n    "

/-- The research agent (lines 93-109). -/
def research_agent : AgentDef :=
  { name := "research_agent"
    instructions := research_agent_instructions
    tools := ["deep_research"] }

/-- The instruction string of `elaboration_agent`, verbatim from lines
113-127. -/
def elaboration_agent_instructions : String :=
  "You are an expert content enhancer specializing in research elaboration.\n\n    When given a research report:\n    1. Analyze the structure and content of the report\n    2. Enhance the report by:\n       - Adding more detailed explanations of complex concepts\n       - Including relevant examples, case studies, and real-world applications\n       - Expanding on key points with additional context and nuance\n       - Adding visual elements descriptions (charts, diagrams, infographics)\n       - Incorporating latest trends and future predictions\n       - Suggesting practical implications for different stakeholders\n    3. Maintain academic rigor and factual accuracy\n    4. Preserve the original structure while making it more comprehensive\n    5. Ensure all additions are relevant and valuable to the topic\n    "

/-- The elaboration agent (lines 111-128): no tools. -/
def elaboration_agent : AgentDef :=
  { name := "elaboration_agent"
    instructions := elaboration_agent_instructions
    tools := [] }

/-- A behaviour of `Runner.run` on the research agent: given the input
text, the runtime issues some sequence of `deep_research` tool calls of
its own choosing and then either returns the final output text or raises.
The code places no constraint on this behaviour. -/
def ResearchRunner : Type :=
  String → List ToolCall × Except String String

/-- A behaviour of `Runner.run` on the elaboration agent (no tools):
either a final output text or an exception. -/
def ElabRunner : Type :=
  String → Except String String

/-- The combined input string handed to the elaboration agent, verbatim
from the f-string at lines 143-151: the topic and the full initial report
are interpolated into the fixed template. -/
def elaboration_input (topic initial_report : String) : String :=
  "\n        RESEARCH TOPIC: " ++ topic ++
    "\n\n        INITIAL RESEARCH REPORT:\n        " ++ initial_report ++
    "\n\n        Please enhance this research report with additional information, examples, case studies,\n        and deeper insights while maintaining its academic rigor and factual accuracy.\n        "

/-- The events emitted up to and including the research stage: the spinner
(line 133), the `Runner.run` invocation on the research agent (line 134),
and the tool calls the runtime issued during it. -/
def research_stage_events (topic : String) (calls : List ToolCall) : List Event :=
  Event.spinner "Conducting initial research..." :: Event.runResearch topic ::
    calls.map Event.toolCall

/-- Shallow embedding of `run_research_process` (lines 130-156): run the
research agent, display the initial report in an expander, build the
combined elaboration input, run the elaboration agent, return the enhanced
report.  The result is the emitted event trace paired with the returned
report or the exception that escaped (the function has no try/except of
its own). -/
def run_research_process (research : ResearchRunner) (elabRun : ElabRunner)
    (topic : String) : List Event × Except String String :=
  match research topic with
  | (calls, Except.error e) => (research_stage_events topic calls, Except.error e)
  | (calls, Except.ok initial_report) =>
      (research_stage_events topic calls ++
        [Event.expanderMarkdown initial_report,
         Event.spinner "Enhancing the report with additional information...",
         Event.runElaboration (elaboration_input topic initial_report)],
       elabRun (elaboration_input topic initial_report))

/-- The file name used by the download button (line 178): the topic with
every space replaced by an underscore, then the fixed suffix.  Models the
Python expression `research_topic.replace(...)` with a one-character
pattern. -/
def download_file_name (topic : String) : String :=
  String.mk (topic.data.map fun c => if c = ' ' then '_' else c) ++ "_report.md"

/-- The exported artifact produced by `st.download_button` for string
data: Streamlit encodes the string as UTF-8 and serves it under the given
file name and MIME type. -/
structure Artifact where
  file_name : String
  bytes : ByteArray
  mime_type : String

/-- The artifact a `download` event denotes. -/
def artifact_of_download (file_name data mime : String) : Artifact :=
  { file_name := file_name, bytes := data.toUTF8, mime_type := mime }

/-- Shallow embedding of the Start Research button body (lines 160-183):
the inner emptiness check with its warning branch, then the try block that
runs the pipeline, displays the enhanced report in the placeholder (the
header written at line 171 is overwritten by the report at line 172, both
going to the same `st.empty` placeholder) and offers the download; any
exception is caught and shown as an error banner (line 183). -/
def start_research_handler (research : ResearchRunner) (elabRun : ElabRunner)
    (topic : String) : List Event :=
  if topic = "" then
    [Event.warning "Please enter a research topic."]
  else
    match run_research_process research elabRun topic with
    | (tr, Except.ok enhanced) =>
        tr ++ [Event.placeholderMarkdown "## Enhanced Research Report",
               Event.placeholderMarkdown enhanced,
               Event.download (download_file_name topic) enhanced "text/markdown"]
    | (tr, Except.error e) =>
        tr ++ [Event.errorMsg ("An error occurred: " ++ e)]

/-- Line 159: `disabled=not research_topic` — the button is disabled
exactly when the topic string is empty (Python string truthiness). -/
def button_disabled (topic : String) : Bool :=
  topic = ""

/-- The app runs the handler only when the button is clicked, and a
disabled button cannot be clicked, so nothing happens for an empty
topic. -/
def app_on_click (research : ResearchRunner) (elabRun : ElabRunner)
    (topic : String) : List Event :=
  if button_disabled topic then [] else start_research_handler research elabRun topic

/-- The text a `placeholderMarkdown` event writes, `none` for any other
event. -/
def placeholder_text : Event → Option String
  | Event.placeholderMarkdown s => some s
  | _ => none

/-- The final content of the report placeholder after a trace: each
`placeholderMarkdown` overwrites the previous one, so it is the payload of
the last such event, `none` if the placeholder was never written. -/
def final_placeholder (tr : List Event) : Option String :=
  (tr.filterMap placeholder_text).getLast?

/-- The `ResearchParams` received by the external service for each
adapter invocation occurring in a pipeline run, in order. -/
def pipeline_adapter_params (research : ResearchRunner) (elabRun : ElabRunner)
    (topic : String) : List ResearchParams :=
  (run_research_process research elabRun topic).1.filterMap fun e =>
    match e with
    | Event.toolCall c => some (adapter_service_params c)
    | _ => none

/-- A concrete research-runner behaviour that issues no tool calls and
returns a fixed report, used by witnesses. -/
def wit_research : ResearchRunner :=
  fun _ => ([], Except.ok "REPORT")

/-- A concrete elaboration-runner behaviour returning a fixed enhanced
report, used by witnesses. -/
def wit_elab : ElabRunner :=
  fun _ => Except.ok "ENHANCED"

/-- A concrete elaboration-runner behaviour returning the empty string. -/
def empty_elab : ElabRunner :=
  fun _ => Except.ok ""

/-- A concrete research-runner behaviour issuing one tool call whose
parameters differ from the fixed 3/180/10 configuration. -/
def stray_research : ResearchRunner :=
  fun _ => ([{ query := "q", max_depth := 5, time_limit := 60, max_urls := 2 }],
            Except.ok "REPORT")

/-- C2: for every input and every behaviour of the external research call,
`deep_research` returns a value (it is a total function into
`ResearchResult`, never an exception), and when the external call raises,
the returned record has `success = false` and carries the error message. -/
theorem C2_adapter_never_raises
    (firecrawl : String → ResearchParams → Except String FirecrawlData)
    (query : String) (max_depth time_limit max_urls : Int) :
    (∃ r : ResearchResult, deep_research firecrawl query max_depth time_limit max_urls = r) ∧
      ∀ e : String, firecrawl query (build_params max_depth time_limit max_urls) = Except.error e →
        (deep_research firecrawl query max_depth time_limit max_urls).success = false ∧
          (deep_research firecrawl query max_depth time_limit max_urls).error = some e := by
  refine ⟨⟨_, rfl⟩, ?_⟩
  intro e he
  simp [deep_research, he]

theorem C2_adapter_never_raises_witness :
    (deep_research wf_firecrawl_raises "q" 3 180 10).success = false ∧
      (deep_research wf_firecrawl_raises "q" 3 180 10).error = some "boom" :=
  (C2_adapter_never_raises wf_firecrawl_raises "q" 3 180 10).2 "boom" rfl

/-- C3: every value returned by `deep_research` is either fully successful
(`success = true` with `final_analysis`, `sources_count` and `sources` all
present and no error) or fully failed (`success = false` with an error
message and the three success-only fields absent); never a mixture. -/
theorem C3_result_never_partial
    (firecrawl : String → ResearchParams → Except String FirecrawlData)
    (query : String) (max_depth time_limit max_urls : Int) :
    fully_successful (deep_research firecrawl query max_depth time_limit max_urls) = true ∨
      fully_failed (deep_research firecrawl query max_depth time_limit max_urls) = true :=
  deep_research_shape firecrawl query max_depth time_limit max_urls

/-- C8: `deep_research` performs no input validation, so a call with
`query = ""` is not rejected up front; its result nevertheless satisfies
the success/error mutual-exclusion invariant. -/
theorem C8_empty_query_still_wellformed
    (firecrawl : String → ResearchParams → Except String FirecrawlData)
    (max_depth time_limit max_urls : Int) :
    fully_successful (deep_research firecrawl "" max_depth time_limit max_urls) = true ∨
      fully_failed (deep_research firecrawl "" max_depth time_limit max_urls) = true :=
  deep_research_shape firecrawl "" max_depth time_limit max_urls

/-- C9: on every successful return of `deep_research` the `sources_count`
field equals the length of the `sources` sequence of the same result
(line 85 computes it as `len` of the very list stored at line 86). -/
theorem C9_sources_count_is_length
    (firecrawl : String → ResearchParams → Except String FirecrawlData)
    (query : String) (max_depth time_limit max_urls : Int)
    (h : (deep_research firecrawl query max_depth time_limit max_urls).success = true) :
    ∃ l : List SourceRecord,
      (deep_research firecrawl query max_depth time_limit max_urls).sources = some l ∧
        (deep_research firecrawl query max_depth time_limit max_urls).sources_count =
          some l.length := by
  cases he : firecrawl query (build_params max_depth time_limit max_urls) with
  | ok results => exact ⟨results.sources, by simp [deep_research, he]⟩
  | error e => simp [deep_research, he] at h

theorem C9_sources_count_is_length_witness :
    ∃ l : List SourceRecord,
      (deep_research wf_firecrawl_ok "q" 3 180 10).sources = some l ∧
        (deep_research wf_firecrawl_ok "q" 3 180 10).sources_count = some l.length :=
  C9_sources_count_is_length wf_firecrawl_ok "q" 3 180 10 (by decide)

/-- Complete case analysis of one pipeline run: either the research stage
raised, and the trace stops at the research-stage events, or it returned a
report, and the trace continues with the expander, the second spinner and
the elaboration invocation, whose outcome is the pipeline outcome. -/
lemma run_research_process_cases (research : ResearchRunner) (elabRun : ElabRunner)
    (topic : String) :
    (∃ calls e, research topic = (calls, Except.error e) ∧
        run_research_process research elabRun topic =
          (research_stage_events topic calls, Except.error e)) ∨
      (∃ calls initial_report, research topic = (calls, Except.ok initial_report) ∧
        run_research_process research elabRun topic =
          (research_stage_events topic calls ++
            [Event.expanderMarkdown initial_report,
             Event.spinner "Enhancing the report with additional information...",
             Event.runElaboration (elaboration_input topic initial_report)],
           elabRun (elaboration_input topic initial_report))) := by
  rcases hr : research topic with ⟨calls, res⟩
  cases res with
  | error e => exact Or.inl ⟨calls, e, rfl, by simp [run_research_process, hr]⟩
  | ok initial_report => exact Or.inr ⟨calls, initial_report, rfl,
      by simp [run_research_process, hr]⟩

/-- Membership in the research-stage trace, spelt out. -/
lemma mem_research_stage_events {e : Event} {topic : String} {calls : List ToolCall} :
    e ∈ research_stage_events topic calls ↔
      e = Event.spinner "Conducting initial research..." ∨
        e = Event.runResearch topic ∨ ∃ c, c ∈ calls ∧ Event.toolCall c = e := by
  simp [research_stage_events, List.mem_map]

/-- An elaboration invocation never occurs during the research stage. -/
lemma runElaboration_not_mem_research_stage (inp topic : String) (calls : List ToolCall) :
    Event.runElaboration inp ∉ research_stage_events topic calls := by
  simp [mem_research_stage_events]

/-- The research stage writes no placeholder. -/
lemma research_stage_events_no_placeholder (topic : String) (calls : List ToolCall) :
    (research_stage_events topic calls).filterMap placeholder_text = [] := by
  rw [List.filterMap_eq_nil_iff]
  intro e he
  rw [mem_research_stage_events] at he
  rcases he with rfl | rfl | ⟨c, -, rfl⟩ <;> rfl

/-- The pipeline body never writes the report placeholder; only the
handler does, after the pipeline returns. -/
lemma run_trace_no_placeholder (research : ResearchRunner) (elabRun : ElabRunner)
    (topic : String) :
    (run_research_process research elabRun topic).1.filterMap placeholder_text = [] := by
  rcases run_research_process_cases research elabRun topic with
    ⟨calls, e, -, hq⟩ | ⟨calls, initial_report, -, hq⟩
  · rw [hq]
    exact research_stage_events_no_placeholder topic calls
  · rw [hq, List.filterMap_append, research_stage_events_no_placeholder]
    rfl

/-- An error banner is never emitted by the pipeline body itself (the
catch-all sits in the button handler, outside `run_research_process`). -/
lemma errorMsg_not_mem_run_trace (m : String) (research : ResearchRunner)
    (elabRun : ElabRunner) (topic : String) :
    Event.errorMsg m ∉ (run_research_process research elabRun topic).1 := by
  rcases run_research_process_cases research elabRun topic with
    ⟨calls, e, -, hq⟩ | ⟨calls, initial_report, -, hq⟩ <;>
    rw [hq] <;> simp [List.mem_append, mem_research_stage_events]

/-- A warning is never emitted by the pipeline body itself. -/
lemma warning_not_mem_run_trace (m : String) (research : ResearchRunner)
    (elabRun : ElabRunner) (topic : String) :
    Event.warning m ∉ (run_research_process research elabRun topic).1 := by
  rcases run_research_process_cases research elabRun topic with
    ⟨calls, e, -, hq⟩ | ⟨calls, initial_report, -, hq⟩ <;>
    rw [hq] <;> simp [List.mem_append, mem_research_stage_events]

/-- The research-agent invocation is always in the pipeline trace. -/
lemma runResearch_mem_run_trace (research : ResearchRunner) (elabRun : ElabRunner)
    (topic : String) :
    Event.runResearch topic ∈ (run_research_process research elabRun topic).1 := by
  rcases run_research_process_cases research elabRun topic with
    ⟨calls, e, -, hq⟩ | ⟨calls, initial_report, -, hq⟩ <;>
    rw [hq] <;> simp [List.mem_append, mem_research_stage_events]

/-- C4: the Elaboration Agent is invoked only after the Research Agent has
returned its report: whenever the trace of a pipeline run contains an
elaboration invocation, the research runner returned that report, the
elaboration input was built from it, and the trace places the research
invocation first, then the expander exposing the intermediate report to
the presentation layer, and only then the elaboration invocation. -/
theorem C4_elaboration_only_after_report (research : ResearchRunner)
    (elabRun : ElabRunner) (topic inp : String)
    (h : Event.runElaboration inp ∈ (run_research_process research elabRun topic).1) :
    ∃ (report : String) (pre mid : List Event),
      (research topic).2 = Except.ok report ∧
      inp = elaboration_input topic report ∧
      (run_research_process research elabRun topic).1 =
        pre ++ Event.runResearch topic :: mid ++
          Event.expanderMarkdown report ::
          Event.spinner "Enhancing the report with additional information..." ::
          [Event.runElaboration inp] := by
  rcases run_research_process_cases research elabRun topic with
    ⟨calls, e, hr, hq⟩ | ⟨calls, initial_report, hr, hq⟩
  · rw [hq] at h
    exact absurd h (runElaboration_not_mem_research_stage inp topic calls)
  · have hinp : inp = elaboration_input topic initial_report := by
      rw [hq] at h
      rcases List.mem_append.mp h with h₀ | h₀
      · exact absurd h₀ (runElaboration_not_mem_research_stage inp topic calls)
      · simpa using h₀
    refine ⟨initial_report, [Event.spinner "Conducting initial research..."],
      calls.map Event.toolCall, by rw [hr], hinp, ?_⟩
    rw [hq, hinp]
    simp [research_stage_events]

theorem C4_elaboration_only_after_report_witness :
    ∃ (report : String) (pre mid : List Event),
      (wit_research "T").2 = Except.ok report ∧
      elaboration_input "T" "REPORT" = elaboration_input "T" report ∧
      (run_research_process wit_research wit_elab "T").1 =
        pre ++ Event.runResearch "T" :: mid ++
          Event.expanderMarkdown report ::
          Event.spinner "Enhancing the report with additional information..." ::
          [Event.runElaboration (elaboration_input "T" "REPORT")] :=
  C4_elaboration_only_after_report wit_research wit_elab "T"
    (elaboration_input "T" "REPORT")
    (by simp [run_research_process, wit_research, research_stage_events])

/-- C6: the single input string handed to the Elaboration Agent contains
the Research Agent output verbatim as a contiguous substring (no
truncation) and also contains the original topic string: both are
interpolated whole into the template of lines 143-151. -/
theorem C6_elaboration_input_contains_report_and_topic (research : ResearchRunner)
    (elabRun : ElabRunner) (topic inp : String)
    (h : Event.runElaboration inp ∈ (run_research_process research elabRun topic).1) :
    ∃ (report a b c : String),
      (research topic).2 = Except.ok report ∧
      inp = a ++ topic ++ b ++ report ++ c := by
  rcases run_research_process_cases research elabRun topic with
    ⟨calls, e, hr, hq⟩ | ⟨calls, initial_report, hr, hq⟩
  · rw [hq] at h
    exact absurd h (runElaboration_not_mem_research_stage inp topic calls)
  · have hinp : inp = elaboration_input topic initial_report := by
      rw [hq] at h
      rcases List.mem_append.mp h with h₀ | h₀
      · exact absurd h₀ (runElaboration_not_mem_research_stage inp topic calls)
      · simpa using h₀
    exact ⟨initial_report, "\n        RESEARCH TOPIC: ",
      "\n\n        INITIAL RESEARCH REPORT:\n        ",
      "\n\n        Please enhance this research report with additional information, examples, case studies,\n        and deeper insights while maintaining its academic rigor and factual accuracy.\n        ",
      by rw [hr], hinp⟩

theorem C6_elaboration_input_contains_report_and_topic_witness :
    ∃ (report a b c : String),
      (wit_research "T").2 = Except.ok report ∧
      elaboration_input "T" "REPORT" = a ++ "T" ++ b ++ report ++ c :=
  C6_elaboration_input_contains_report_and_topic wit_research wit_elab "T"
    (elaboration_input "T" "REPORT")
    (by simp [run_research_process, wit_research, research_stage_events])

/-- For a non-empty topic, a successful pipeline run makes the handler
display the header and the enhanced report in the placeholder and offer
the download (lines 163-180). -/
lemma handler_ok (research : ResearchRunner) (elabRun : ElabRunner)
    (topic : String) (tr : List Event) (r : String) (h : topic ≠ "")
    (hq : run_research_process research elabRun topic = (tr, Except.ok r)) :
    start_research_handler research elabRun topic =
      tr ++ [Event.placeholderMarkdown "## Enhanced Research Report",
             Event.placeholderMarkdown r,
             Event.download (download_file_name topic) r "text/markdown"] := by
  unfold start_research_handler
  rw [if_neg h, hq]

/-- For a non-empty topic, a failing pipeline run makes the handler show
the error banner of line 183. -/
lemma handler_error (research : ResearchRunner) (elabRun : ElabRunner)
    (topic : String) (tr : List Event) (e : String) (h : topic ≠ "")
    (hq : run_research_process research elabRun topic = (tr, Except.error e)) :
    start_research_handler research elabRun topic =
      tr ++ [Event.errorMsg ("An error occurred: " ++ e)] := by
  unfold start_research_handler
  rw [if_neg h, hq]

/-- The error banner of line 183 is never the empty string: it carries a
fixed non-empty prefix before the exception text. -/
lemma error_banner_ne_empty (e : String) : "An error occurred: " ++ e ≠ "" := by
  intro h
  have h1 := congrArg String.length h
  rw [String.length_append] at h1
  have h2 : ("An error occurred: " : String).length = 19 := rfl
  have h3 : ("" : String).length = 0 := rfl
  rw [h2, h3] at h1
  omega

/-- C7: for topic `"Foo Bar"`, whenever the pipeline produces a final
report `R`, the handler emits a download whose file name is
`"Foo_Bar_report.md"` (line 178 replaces spaces by underscores and appends
the fixed suffix), whose exported artifact carries exactly the UTF-8 bytes
of `R`, and whose MIME type is `"text/markdown"`. -/
theorem C7_export_artifact (research : ResearchRunner) (elabRun : ElabRunner)
    (tr : List Event) (R : String)
    (h : run_research_process research elabRun "Foo Bar" = (tr, Except.ok R)) :
    Event.download "Foo_Bar_report.md" R "text/markdown" ∈
        start_research_handler research elabRun "Foo Bar" ∧
      artifact_of_download "Foo_Bar_report.md" R "text/markdown" =
        { file_name := "Foo_Bar_report.md", bytes := R.toUTF8,
          mime_type := "text/markdown" } := by
  constructor
  · rw [handler_ok research elabRun "Foo Bar" tr R (by decide) h]
    have hname : download_file_name "Foo Bar" = "Foo_Bar_report.md" := by decide
    rw [hname]
    simp [List.mem_append]
  · rfl

theorem C7_export_artifact_witness :
    Event.download "Foo_Bar_report.md" "ENHANCED" "text/markdown" ∈
        start_research_handler wit_research wit_elab "Foo Bar" ∧
      artifact_of_download "Foo_Bar_report.md" "ENHANCED" "text/markdown" =
        { file_name := "Foo_Bar_report.md", bytes := String.toUTF8 "ENHANCED",
          mime_type := "text/markdown" } :=
  C7_export_artifact wit_research wit_elab
    [Event.spinner "Conducting initial research...",
     Event.runResearch "Foo Bar",
     Event.expanderMarkdown "REPORT",
     Event.spinner "Enhancing the report with additional information...",
     Event.runElaboration (elaboration_input "Foo Bar" "REPORT")]
    "ENHANCED" rfl

/-- C10: the Start Research button is disabled exactly for the empty topic
(line 159), so a click never reaches the handler with an empty topic, the
inner warning branch of lines 160-161 is unreachable, and a
whitespace-only topic such as a single space counts as non-empty and does
start a run. -/
theorem C10_button_gating :
    button_disabled "" = true ∧ button_disabled " " = false ∧
      (∀ (research : ResearchRunner) (elabRun : ElabRunner),
        app_on_click research elabRun "" = []) ∧
      (∀ (research : ResearchRunner) (elabRun : ElabRunner) (topic : String),
        button_disabled topic = false →
          topic ≠ "" ∧
            ∀ m, Event.warning m ∉ start_research_handler research elabRun topic) ∧
      ∀ (research : ResearchRunner) (elabRun : ElabRunner),
        Event.runResearch " " ∈ app_on_click research elabRun " " := by
  refine ⟨rfl, rfl, fun research elabRun => rfl, ?_, ?_⟩
  · intro research elabRun topic h
    have ht : topic ≠ "" := by simpa [button_disabled] using h
    refine ⟨ht, ?_⟩
    intro m hm
    rcases hq : run_research_process research elabRun topic with ⟨tr, res⟩
    have htr := warning_not_mem_run_trace m research elabRun topic
    rw [hq] at htr
    cases res with
    | ok r =>
        rw [handler_ok research elabRun topic tr r ht hq] at hm
        rcases List.mem_append.mp hm with h₀ | h₀
        · exact htr h₀
        · simp at h₀
    | error e =>
        rw [handler_error research elabRun topic tr e ht hq] at hm
        rcases List.mem_append.mp hm with h₀ | h₀
        · exact htr h₀
        · simp at h₀
  · intro research elabRun
    have happ : app_on_click research elabRun " " =
        start_research_handler research elabRun " " := rfl
    rw [happ]
    rcases hq : run_research_process research elabRun " " with ⟨tr, res⟩
    have htr := runResearch_mem_run_trace research elabRun " "
    rw [hq] at htr
    cases res with
    | ok r =>
        rw [handler_ok research elabRun " " tr r (by decide) hq]
        exact List.mem_append.mpr (Or.inl htr)
    | error e =>
        rw [handler_error research elabRun " " tr e (by decide) hq]
        exact List.mem_append.mpr (Or.inl htr)

theorem C10_button_gating_witness :
    (" " : String) ≠ "" ∧
      ∀ m, Event.warning m ∉ start_research_handler wit_research wit_elab " " :=
  C10_button_gating.2.2.2.1 wit_research wit_elab " " rfl

/-- C5 as stated is false of the code: the adapter receives whatever
arguments the agent runtime chooses for a tool call — nothing in the code
pins them to maxDepth 3, timeLimit 180, maxUrls 10.  A runtime behaviour
issuing a tool call with maxDepth 5, timeLimit 60, maxUrls 2 during a
pipeline run on topic "AI" is a concrete refutation. -/
theorem C5_fixed_params_counterexample :
    ¬ ∀ (research : ResearchRunner) (elabRun : ElabRunner) (topic : String),
        ∀ p ∈ pipeline_adapter_params research elabRun topic,
          p = build_params 3 180 10 := by
  intro hclaim
  have hmem : build_params 5 60 2 ∈ pipeline_adapter_params stray_research wit_elab "AI" := by
    decide
  have h := hclaim stray_research wit_elab "AI" (build_params 5 60 2) hmem
  exact absurd h (by decide)

/-- C5, amended: the adapter forwards each tool call's arguments unchanged
as the service parameters — the fixed values appear only in the research
agent's instruction text (which does prescribe max_depth 3, time_limit 180
and max_urls 10), and the code does not enforce them per invocation. -/
theorem C5_params_forwarded_not_enforced :
    (∀ (research : ResearchRunner) (elabRun : ElabRunner) (topic : String) (c : ToolCall),
        Event.toolCall c ∈ (run_research_process research elabRun topic).1 →
          adapter_service_params c ∈ pipeline_adapter_params research elabRun topic ∧
            adapter_service_params c =
              build_params c.max_depth c.time_limit c.max_urls) ∧
      ∃ a b c d : String,
        research_agent_instructions =
          a ++ "max_depth: 3" ++ b ++ "time_limit: 180" ++ c ++ "max_urls: 10" ++ d := by
  constructor
  · intro research elabRun topic c hc
    exact ⟨List.mem_filterMap.mpr ⟨Event.toolCall c, hc, rfl⟩, rfl⟩
  · exact ⟨"You are a research assistant that can perform deep web research on any topic.\n\n    When given a research topic or question:\n    1. Use the deep_research tool to gather comprehensive information\n       - Always use these parameters:\n         * ",
      " (for moderate depth)\n         * ",
      " (3 minutes)\n         * ",
      " (sufficient sources)\n    2. The tool will search the web, analyze multiple sources, and provide a synthesis\n    3. Review the research results and organize them into a well-structured report\n    4. Include proper citations for all sources\n    5. Highlight key findings and insights\n    ",
      by decide⟩

theorem C5_params_forwarded_not_enforced_witness :
    adapter_service_params { query := "q", max_depth := 5, time_limit := 60, max_urls := 2 } ∈
        pipeline_adapter_params stray_research wit_elab "AI" ∧
      adapter_service_params { query := "q", max_depth := 5, time_limit := 60, max_urls := 2 } =
        build_params 5 60 2 :=
  C5_params_forwarded_not_enforced.1 stray_research wit_elab "AI"
    { query := "q", max_depth := 5, time_limit := 60, max_urls := 2 } (by decide)

/-- C1 as stated is false of the code: nothing guarantees the final report
is non-empty.  With a runtime whose elaboration stage returns the empty
string, the run on topic "AI" ends displaying an empty final report and
shows no error banner, so it neither is a Done state with a non-empty
report nor an Error state. -/
theorem C1_done_or_error_counterexample :
    ¬ ∀ (research : ResearchRunner) (elabRun : ElabRunner) (topic : String), topic ≠ "" →
        (∃ r, final_placeholder (start_research_handler research elabRun topic) = some r ∧
            r ≠ "" ∧
            ∀ m, Event.errorMsg m ∉ start_research_handler research elabRun topic) ∨
          ((∃ m, Event.errorMsg m ∈ start_research_handler research elabRun topic ∧ m ≠ "") ∧
            final_placeholder (start_research_handler research elabRun topic) = none) := by
  intro hclaim
  have hfin : final_placeholder (start_research_handler wit_research empty_elab "AI") =
      some "" := by decide
  rcases hclaim wit_research empty_elab "AI" (by decide) with
    ⟨r, hr, hne, -⟩ | ⟨⟨m, hm, -⟩, -⟩
  · rw [hfin] at hr
    cases hr
    exact hne rfl
  · have hnot : ∀ m', Event.errorMsg m' ∉ start_research_handler wit_research empty_elab "AI" := by
      intro m'
      intro hmem
      have h1 : start_research_handler wit_research empty_elab "AI" =
          [Event.spinner "Conducting initial research...",
           Event.runResearch "AI",
           Event.expanderMarkdown "REPORT",
           Event.spinner "Enhancing the report with additional information...",
           Event.runElaboration (elaboration_input "AI" "REPORT"),
           Event.placeholderMarkdown "## Enhanced Research Report",
           Event.placeholderMarkdown "",
           Event.download (download_file_name "AI") "" "text/markdown"] := rfl
      rw [h1] at hmem
      simp at hmem
    exact hnot m hm

/-- C1, amended: for every non-empty topic and every behaviour of the two
agent-runtime calls, the run ends either displaying in the placeholder
exactly the final report the elaboration stage returned (with no error
banner anywhere), or with a non-empty error banner and the placeholder
never written — never both and never neither.  Non-emptiness of the
displayed report is not guaranteed by the code; it is exactly the
elaboration output. -/
theorem C1_done_or_error (research : ResearchRunner) (elabRun : ElabRunner)
    (topic : String) (h : topic ≠ "") :
    (∃ r, final_placeholder (start_research_handler research elabRun topic) = some r ∧
        (run_research_process research elabRun topic).2 = Except.ok r ∧
        ∀ m, Event.errorMsg m ∉ start_research_handler research elabRun topic) ∨
      ((∃ m, Event.errorMsg m ∈ start_research_handler research elabRun topic ∧ m ≠ "") ∧
        final_placeholder (start_research_handler research elabRun topic) = none) := by
  rcases hq : run_research_process research elabRun topic with ⟨tr, res⟩
  have htr : tr.filterMap placeholder_text = [] := by
    have h0 := run_trace_no_placeholder research elabRun topic
    rw [hq] at h0
    exact h0
  cases res with
  | ok r =>
      left
      have hh := handler_ok research elabRun topic tr r h hq
      refine ⟨r, ?_, rfl, ?_⟩
      · rw [hh, final_placeholder, List.filterMap_append, htr]
        rfl
      · intro m hm
        rw [hh] at hm
        have hmtr := errorMsg_not_mem_run_trace m research elabRun topic
        rw [hq] at hmtr
        rcases List.mem_append.mp hm with h₀ | h₀
        · exact hmtr h₀
        · simp at h₀
  | error e =>
      right
      have hh := handler_error research elabRun topic tr e h hq
      constructor
      · refine ⟨"An error occurred: " ++ e, ?_, error_banner_ne_empty e⟩
        rw [hh]
        exact List.mem_append.mpr (Or.inr (by simp))
      · rw [hh, final_placeholder, List.filterMap_append, htr]
        rfl

theorem C1_done_or_error_witness :
    (∃ r, final_placeholder (start_research_handler wit_research wit_elab "T") = some r ∧
        (run_research_process wit_research wit_elab "T").2 = Except.ok r ∧
        ∀ m, Event.errorMsg m ∉ start_research_handler wit_research wit_elab "T") ∨
      ((∃ m, Event.errorMsg m ∈ start_research_handler wit_research wit_elab "T" ∧ m ≠ "") ∧
        final_placeholder (start_research_handler wit_research wit_elab "T") = none) :=
  C1_done_or_error wit_research wit_elab "T" (by decide)
